import Mathlib

/-!
Shallow embedding of the OpenResponseViewer annotation tool (`src/main.rs`).

The program is a small GUI viewer over an in-memory list of survey `Entry`
records.  We embed the data model (`Entry`, `Code`, the `Viewer` state and the
`Message` intents) and the pure logic of `Viewer::new`, `Viewer::update`,
`Viewer::save` and the mutating fragment of `Viewer::view`.

Modelling conventions:
* Rust `usize` becomes `Nat`; `usize::saturating_sub 1` is `Nat` subtraction
  (`.- 1`), and `self.data.len() - 1` keeps the same truncated-subtraction
  semantics.
* `HashSet<String>` becomes `Finset String` (unordered, duplicate-free, with
  insert / erase matching `HashSet::insert` / `HashSet::remove`).
* `Viewer::save` writes `self.data` (the whole entry sequence, JSON) to the
  output file; we model the write as returning the serialized sequence, and
  `Viewer.update` returns `(new state, saved contents)` where the second
  component is `none` exactly when the Rust code performs no save.  Rust's
  `Vec` indexing `self.data[self.idx]` is totalized with `List.getD`; all
  theorems that depend on it carry the in-bounds hypothesis that the program
  maintains.
* `Viewer::new` reads `std::env::args()` (so `args[0]` is the program name and
  the three positional arguments are `args[1..4]`), asserts `args.len() == 4`,
  and only then opens the input files.  File contents are passed in as oracles:
  `readEntries` gives the parsed entry list (or `none` on open/parse failure),
  `readVocabRows` gives the per-row CSV decode results of the vocabulary file
  (or `none` if that file cannot be opened).  Panics (`assert_eq!`, `expect`)
  are modelled as `Except.error`.
-/

/-- One annotatable record, `struct Entry` of `main.rs` (lines 38-47).
The Rust field `matches: Option<bool>` keeps its name, quoted because
`matches` is a Lean keyword; `codes: HashSet<String>` becomes a
`Finset String`. -/
structure Entry where
  index : Nat
  lab : String
  group : String
  response : String
  ratings : List String
  «matches» : Option Bool
  codes : Finset String
deriving DecidableEq, Inhabited

/-- One controlled-vocabulary row, `struct Code` of `main.rs` (lines 49-54). -/
structure Code where
  theme : String
  tag : String
  code : String
deriving DecidableEq, Inhabited

/-- The user intents, `enum Message` of `main.rs` (lines 13-21). -/
inductive Message where
  | NextRow
  | PrevRow
  | Matches (b : Bool)
  | ToggleMatches
  | CodeToggle (tag : String) (state : Bool)
  | Ignore
deriving DecidableEq

/-- The application state, `struct Viewer` of `main.rs` (lines 56-72); the two
`button::State` fields are pure widget-local UI state with no data content and
are omitted. -/
structure Viewer where
  input_file_path : String
  output_file_path : String
  idx : Nat
  data : List Entry
  codes : List Code
  themes : List String
deriving DecidableEq

/-- `Viewer::save` (main.rs 75-79) serializes the whole `self.data` sequence to
the output file; we model the write by returning the serialized sequence. -/
def Viewer.save (v : Viewer) : List Entry :=
  v.data

/-- `Viewer::curr` (main.rs 81-83): `&self.data[self.idx]`, totalized with a
default; every use below is guarded by the in-bounds invariant. -/
def Viewer.curr (v : Viewer) : Entry :=
  v.data.getD v.idx default

/-- Writing through `Viewer::curr_mut` (main.rs 85-87): replace the entry at
`self.idx`. -/
def Viewer.setCurr (v : Viewer) (e : Entry) : Viewer :=
  { v with data := v.data.set v.idx e }

/-- `Viewer::update` (main.rs 145-170).  The second component of the result is
the contents written to the output file by `self.save()`, or `none` when the
branch does not save. -/
def Viewer.update (v : Viewer) (m : Message) : Viewer × Option (List Entry) :=
  match m with
  | .NextRow => ({ v with idx := min (v.idx + 1) (v.data.length - 1) }, none)
  | .PrevRow => ({ v with idx := v.idx - 1 }, none)
  | .Matches b =>
      let v' := v.setCurr { v.curr with «matches» := some b }
      (v', some v'.save)
  | .CodeToggle tag state =>
      let v' := v.setCurr
        (if state then { v.curr with codes := insert tag v.curr.codes }
         else { v.curr with codes := v.curr.codes.erase tag })
      (v', some v'.save)
  | .ToggleMatches =>
      let v' := v.setCurr
        { v.curr with «matches» := (v.curr.«matches».or (some false)).map (fun b => !b) }
      (v', some v'.save)
  | .Ignore => (v, none)

/-- The state advanced by one `NextRow` intent. -/
def stepNext (v : Viewer) : Viewer :=
  (v.update .NextRow).1

/-- The state advanced by one `PrevRow` intent. -/
def stepPrev (v : Viewer) : Viewer :=
  (v.update .PrevRow).1

/-- `Option::get_or_insert(false)` as used on `matches` in `Viewer::view`
(main.rs 225): returns the contained value, inserting `false` first when the
option is `none`.  The second component is the option after the call. -/
def getOrInsertFalse (m : Option Bool) : Bool × Option Bool :=
  match m with
  | none => (false, some false)
  | some b => (b, some b)

/-- The mutating fragment of `Viewer::view` (main.rs 224-228): building the
"Matches" checkbox evaluates `*self.data[self.idx].matches.get_or_insert(false)`,
which both reads the displayed boolean and writes the option back into the
current entry.  Returns the displayed value and the post-render state. -/
def Viewer.viewMatchesCheckbox (v : Viewer) : Bool × Viewer :=
  ((getOrInsertFalse v.curr.«matches»).1,
    v.setCurr { v.curr with «matches» := (getOrInsertFalse v.curr.«matches»).2 })

/-- Loading the vocabulary (main.rs 113-116):
`csv::Reader::from_reader(file).deserialize().filter_map(|r| r.ok()).collect()`.
The CSV library yields one `Result` per data row; rows are supplied here as
their decode results, and the `filter_map` keeps exactly the successful ones. -/
def loadVocabulary (rows : List (Except String Code)) : List Code :=
  rows.filterMap Except.toOption

/-- Remove consecutive duplicates, `Vec::dedup` of Rust (main.rs 120). -/
def dedupAdj {α : Type} [DecidableEq α] : List α → List α
  | [] => []
  | [a] => [a]
  | a :: b :: l => if a = b then dedupAdj (b :: l) else a :: dedupAdj (b :: l)

/-- Theme derivation (main.rs 118-120): map `theme`, `sort()`, `dedup()`.
Rust `Vec::sort` is a comparison sort by the total order on strings; since that
order is antisymmetric, the sorted rearrangement of a list is unique, so the
structurally recursive `List.insertionSort` computes exactly the list `sort()`
produces. -/
def themesOf (codes : List Code) : List String :=
  dedupAdj (List.insertionSort (· ≤ ·) (codes.map Code.theme))

/-- Startup failures of `Viewer::new`: the `assert_eq!(args.len(), 4)` panic
(main.rs 98) and the two `expect` panics on the input files (main.rs 103-111). -/
inductive InitError where
  | wrongArgCount (n : Nat)
  | inputFileError (path : String)
  | vocabFileError (path : String)
deriving DecidableEq

/-- `Viewer::new` (main.rs 95-135).  `args` is the full `std::env::args()`
vector (program name first, then the three positional arguments).  The
argument-count assertion runs before either file oracle is consulted. -/
def viewerNew (args : List String)
    (readEntries : String → Option (List Entry))
    (readVocabRows : String → Option (List (Except String Code))) :
    Except InitError Viewer :=
  if args.length = 4 then
    match readEntries (args.getD 1 "") with
    | none => Except.error (InitError.inputFileError (args.getD 1 ""))
    | some data =>
      match readVocabRows (args.getD 2 "") with
      | none => Except.error (InitError.vocabFileError (args.getD 2 ""))
      | some rows =>
        Except.ok
          { input_file_path := args.getD 1 ""
            output_file_path := args.getD 3 ""
            idx := 0
            data := data
            codes := loadVocabulary rows
            themes := themesOf (loadVocabulary rows) }
  else Except.error (InitError.wrongArgCount args.length)

/-- A sample entry with `matches` absent and no codes. -/
def sampleEntry : Entry :=
  { index := 0, lab := "L1", group := "G1", response := "R1", ratings := [],
    «matches» := none, codes := ∅ }

/-- The tag used in concrete code-toggle scenarios. -/
def tagA : String := "a"

/-- A sample entry whose code set already contains `tagA`. -/
def taggedEntry : Entry :=
  { sampleEntry with index := 1, codes := {"a"} }

/-- A sample entry whose `matches` flag has been written to `true`. -/
def flaggedEntry : Entry :=
  { sampleEntry with index := 2, «matches» := some true }

/-- A sample viewer over three entries, positioned at the first. -/
def sampleViewer : Viewer :=
  { input_file_path := "in", output_file_path := "out", idx := 0,
    data := [sampleEntry, taggedEntry, flaggedEntry], codes := [], themes := [] }

/-- The sample viewer positioned at its last entry. -/
def viewerAtEnd : Viewer :=
  { sampleViewer with idx := 2 }

/-- A one-entry viewer whose current entry already carries `tagA`. -/
def roundTripViewer : Viewer :=
  { input_file_path := "in", output_file_path := "out", idx := 0,
    data := [taggedEntry], codes := [], themes := [] }

/-- A one-entry viewer whose current entry has `matches = some true`. -/
def flaggedViewer : Viewer :=
  { input_file_path := "in", output_file_path := "out", idx := 0,
    data := [flaggedEntry], codes := [], themes := [] }

/-- A sample well-formed vocabulary row. -/
def codeA : Code := { theme := "themeA", tag := "tA", code := "labelA" }

/-- Another sample well-formed vocabulary row. -/
def codeB : Code := { theme := "themeB", tag := "tB", code := "labelB" }

/-- The decode error carried by a malformed vocabulary row. -/
def badRowMsg : String := "malformed row"

/-- Decode results of a three-data-row vocabulary file whose middle row is
malformed. -/
def sampleRows : List (Except String Code) :=
  [Except.ok codeA, Except.error badRowMsg, Except.ok codeB]

/-- A well-formed argument vector: program name plus three positional
arguments. -/
def okArgs : List String := ["prog", "in.json", "codes.csv", "out.json"]

/-- An argument vector with only two positional arguments. -/
def badArgs : List String := ["prog", "in.json", "out.json"]

/-- A file oracle always yielding the one-entry list. -/
def constEntries : String → Option (List Entry) := fun _ => some [sampleEntry]

/-- A file oracle always yielding `sampleRows`. -/
def constVocab : String → Option (List (Except String Code)) := fun _ => some sampleRows


theorem stepNext_data (v : Viewer) : (stepNext v).data = v.data := rfl

theorem stepNext_idx (v : Viewer) :
    (stepNext v).idx = min (v.idx + 1) (v.data.length - 1) := rfl

theorem stepPrev_data (v : Viewer) : (stepPrev v).data = v.data := rfl

theorem stepPrev_idx (v : Viewer) : (stepPrev v).idx = v.idx - 1 := rfl

theorem stepNext_iterate_fixed (v : Viewer) (h : v.idx = v.data.length - 1) (k : Nat) :
    (stepNext^[k] v).idx = v.data.length - 1 ∧ (stepNext^[k] v).data = v.data := by
  induction k with
  | zero => exact ⟨h, rfl⟩
  | succ k ih =>
    rw [Function.iterate_succ_apply', stepNext_data, stepNext_idx, ih.1, ih.2]
    exact ⟨by omega, rfl⟩

theorem stepPrev_iterate_fixed (v : Viewer) (h : v.idx = 0) (k : Nat) :
    (stepPrev^[k] v).idx = 0 ∧ (stepPrev^[k] v).data = v.data := by
  induction k with
  | zero => exact ⟨h, rfl⟩
  | succ k ih =>
    rw [Function.iterate_succ_apply', stepPrev_data, stepPrev_idx, ih.1, ih.2]
    exact ⟨rfl, rfl⟩

/-- C1: with non-empty data of length `n` and `idx < n`, `NextRow` (Advance)
sets `idx` to `min (idx+1) (n-1)` — clamping at the last entry, no wraparound —
and `PrevRow` (Retreat) sets `idx` to `idx - 1`, the saturating subtraction
`max (idx-1) 0`; repeating Advance at `idx = n-1` any number of times leaves
`idx = n-1`, and repeating Retreat at `idx = 0` leaves `idx = 0`. -/
theorem claim1_navigation_clamps (v : Viewer) (hn : 0 < v.data.length)
    (hidx : v.idx < v.data.length) :
    (stepNext v).idx = min (v.idx + 1) (v.data.length - 1) ∧
    (stepPrev v).idx = v.idx - 1 ∧
    (v.idx = v.data.length - 1 → ∀ k, (stepNext^[k] v).idx = v.data.length - 1) ∧
    (v.idx = 0 → ∀ k, (stepPrev^[k] v).idx = 0) :=
  ⟨rfl, rfl, fun h k => (stepNext_iterate_fixed v h k).1,
    fun h k => (stepPrev_iterate_fixed v h k).1⟩

/-- C1 witness: on the concrete three-entry viewer, Advance repeated five times
from the last entry stays at the last entry, and Retreat repeated four times
from the first entry stays at the first. -/
theorem claim1_navigation_clamps_witness :
    0 < viewerAtEnd.data.length ∧ viewerAtEnd.idx < viewerAtEnd.data.length ∧
    (stepNext^[5] viewerAtEnd).idx = viewerAtEnd.data.length - 1 ∧
    (stepPrev^[4] sampleViewer).idx = 0 :=
  ⟨by decide, by decide,
    (claim1_navigation_clamps viewerAtEnd (by decide) (by decide)).2.2.1 (by decide) 5,
    (claim1_navigation_clamps sampleViewer (by decide) (by decide)).2.2.2 (by decide) 4⟩

/-- C2: with non-empty data and `idx < n`, every intent preserves the length of
the data sequence and the invariant `idx < n`; intents other than `NextRow`
and `PrevRow` leave `idx` unchanged.  (`idx` is a `Nat`, mirroring `usize`, so
`0 ≤ idx` holds by type and Retreat cannot go below `0`.) -/
theorem claim2_invariant_preserved (v : Viewer) (m : Message)
    (hn : 0 < v.data.length) (hidx : v.idx < v.data.length) :
    (v.update m).1.data.length = v.data.length ∧
    (v.update m).1.idx < (v.update m).1.data.length ∧
    (m ≠ Message.NextRow → m ≠ Message.PrevRow → (v.update m).1.idx = v.idx) := by
  cases m with
  | NextRow =>
    refine ⟨rfl, ?_, fun h _ => absurd rfl h⟩
    show min (v.idx + 1) (v.data.length - 1) < v.data.length
    omega
  | PrevRow =>
    refine ⟨rfl, ?_, fun _ h => absurd rfl h⟩
    show v.idx - 1 < v.data.length
    omega
  | Matches b =>
    exact ⟨List.length_set .., by simpa [Viewer.update, Viewer.setCurr] using hidx,
      fun _ _ => rfl⟩
  | ToggleMatches =>
    exact ⟨List.length_set .., by simpa [Viewer.update, Viewer.setCurr] using hidx,
      fun _ _ => rfl⟩
  | CodeToggle tag state =>
    exact ⟨List.length_set .., by simpa [Viewer.update, Viewer.setCurr] using hidx,
      fun _ _ => rfl⟩
  | Ignore => exact ⟨rfl, hidx, fun _ _ => rfl⟩

/-- C2 witness: the invariant is preserved on the concrete three-entry viewer
under the `Matches true` intent, which also leaves `idx` unchanged. -/
theorem claim2_invariant_preserved_witness :
    0 < sampleViewer.data.length ∧ sampleViewer.idx < sampleViewer.data.length ∧
    (sampleViewer.update (Message.Matches true)).1.idx
      < (sampleViewer.update (Message.Matches true)).1.data.length ∧
    (sampleViewer.update (Message.Matches true)).1.idx = sampleViewer.idx :=
  ⟨by decide, by decide,
    (claim2_invariant_preserved sampleViewer (Message.Matches true) (by decide) (by decide)).2.1,
    (claim2_invariant_preserved sampleViewer (Message.Matches true) (by decide) (by decide)).2.2
      (by decide) (by decide)⟩

/-- C10: `NextRow`, `PrevRow` and `Ignore` perform no save and leave every
entry unchanged; the two navigation intents change nothing but `idx`, and
`Ignore` returns the state unchanged. -/
theorem claim10_navigation_frame (v : Viewer) :
    ((v.update .NextRow).1.data = v.data ∧ (v.update .NextRow).2 = none ∧
      (v.update .NextRow).1 = { v with idx := (v.update .NextRow).1.idx }) ∧
    ((v.update .PrevRow).1.data = v.data ∧ (v.update .PrevRow).2 = none ∧
      (v.update .PrevRow).1 = { v with idx := (v.update .PrevRow).1.idx }) ∧
    ((v.update .Ignore).1 = v ∧ (v.update .Ignore).2 = none) :=
  ⟨⟨rfl, rfl, rfl⟩, ⟨rfl, rfl, rfl⟩, ⟨rfl, rfl⟩⟩

theorem curr_eq_getElem (v : Viewer) (h : v.idx < v.data.length) :
    v.curr = v.data[v.idx] := by
  rw [Viewer.curr, List.getD_eq_getElem?_getD, List.getElem?_eq_getElem h]
  rfl

theorem setCurr_idx (v : Viewer) (e : Entry) : (v.setCurr e).idx = v.idx := rfl

theorem setCurr_length (v : Viewer) (e : Entry) :
    (v.setCurr e).data.length = v.data.length :=
  List.length_set ..

theorem setCurr_curr (v : Viewer) (e : Entry) (h : v.idx < v.data.length) :
    (v.setCurr e).curr = e := by
  show (v.data.set v.idx e).getD v.idx default = e
  rw [List.getD_eq_getElem?_getD, List.getElem?_set_self]
  · rfl
  · exact h

theorem setCurr_self (v : Viewer) (h : v.idx < v.data.length) :
    v.setCurr v.curr = v := by
  have : v.data.set v.idx v.curr = v.data := by
    apply List.ext_getElem?
    intro j
    by_cases hj : v.idx = j
    · subst hj
      rw [List.getElem?_set_self h, curr_eq_getElem v h, List.getElem?_eq_getElem h]
    · rw [List.getElem?_set_ne hj]
  show { v with data := v.data.set v.idx v.curr } = v
  rw [this]


theorem setCurr_setCurr (v : Viewer) (e1 e2 : Entry) :
    (v.setCurr e1).setCurr e2 = v.setCurr e2 := by
  show { v with data := (v.data.set v.idx e1).set v.idx e2 }
      = { v with data := v.data.set v.idx e2 }
  rw [List.set_set]

theorem toggleMatches_curr (v : Viewer) (h : v.idx < v.data.length) :
    (v.update .ToggleMatches).1.curr.«matches»
      = (v.curr.«matches».or (some false)).map (fun b => !b) := by
  show (v.setCurr { v.curr with
      «matches» := (v.curr.«matches».or (some false)).map (fun b => !b) }).curr.«matches» = _
  rw [setCurr_curr _ _ h]

/-- C3: with `idx` in bounds, `ToggleMatches` maps the current entry's
`matches` field by sending `none` and `some false` to `some true` and
`some true` to `some false`; applying it twice from any non-absent value
returns that value (involution), and applying it once from absent yields
`some true`. -/
theorem claim3_toggle_matches (v : Viewer) (hidx : v.idx < v.data.length) :
    ((v.update .ToggleMatches).1.curr.«matches»
        = (match v.curr.«matches» with
            | none => some true
            | some b => some (!b))) ∧
    (∀ b, v.curr.«matches» = some b →
      ((v.update .ToggleMatches).1.update .ToggleMatches).1.curr.«matches» = some b) ∧
    (v.curr.«matches» = none →
      (v.update .ToggleMatches).1.curr.«matches» = some true) := by
  have h1 := toggleMatches_curr v hidx
  have hidx1 : (v.update .ToggleMatches).1.idx < (v.update .ToggleMatches).1.data.length := by
    show (v.setCurr _).idx < (v.setCurr _).data.length
    rw [setCurr_idx, setCurr_length]
    exact hidx
  refine ⟨?_, ?_, ?_⟩
  · rw [h1]
    cases v.curr.«matches» <;> simp
  · intro b hb
    rw [toggleMatches_curr _ hidx1, h1, hb]
    simp
  · intro hb
    rw [h1, hb]
    simp

/-- C3 witness: on the one-entry viewer whose current entry has
`matches = some true`, toggling twice restores `some true`. -/
theorem claim3_toggle_matches_witness :
    flaggedViewer.idx < flaggedViewer.data.length ∧
    flaggedViewer.curr.«matches» = some true ∧
    ((flaggedViewer.update .ToggleMatches).1.update .ToggleMatches).1.curr.«matches»
      = some true :=
  ⟨by decide, by decide,
    (claim3_toggle_matches flaggedViewer (by decide)).2.1 true (by decide)⟩

/-- C4 counterexample: on a viewer whose current entry already carries the tag,
`SetCode(tag, true)` followed by `SetCode(tag, false)` erases the tag, so the
entry sequence is NOT left unchanged — the claimed round-trip fails for code
sets that already contain the tag. -/
theorem claim4_roundtrip_counterexample :
    ((roundTripViewer.update (Message.CodeToggle tagA true)).1.update
        (Message.CodeToggle tagA false)).1.data ≠ roundTripViewer.data := by
  decide

theorem codeToggle_pair_eq (v : Viewer) (tag : String) (hidx : v.idx < v.data.length) :
    ((v.update (Message.CodeToggle tag true)).1.update (Message.CodeToggle tag false)).1
      = v.setCurr { v.curr with codes := (insert tag v.curr.codes).erase tag } := by
  have h1idx : (v.setCurr { v.curr with codes := insert tag v.curr.codes }).idx
      < (v.setCurr { v.curr with codes := insert tag v.curr.codes }).data.length := by
    rw [setCurr_idx, setCurr_length]
    exact hidx
  show ((v.setCurr { v.curr with codes := insert tag v.curr.codes }).setCurr
      { (v.setCurr { v.curr with codes := insert tag v.curr.codes }).curr with
        codes := (v.setCurr { v.curr with codes := insert tag v.curr.codes }).curr.codes.erase tag })
    = _
  rw [setCurr_curr _ _ hidx, setCurr_setCurr]

/-- C4 amended: with `idx` in bounds, `SetCode(tag, true)` followed by
`SetCode(tag, false)` leaves the current entry's code set equal to the original
set with `tag` erased; in particular the state is unchanged from before both
calls exactly when `tag` was not already present — the unrestricted claim fails
when the set already contains the tag (see the counterexample). -/
theorem claim4_code_roundtrip (v : Viewer) (tag : String) (hidx : v.idx < v.data.length) :
    (((v.update (Message.CodeToggle tag true)).1.update
        (Message.CodeToggle tag false)).1.curr.codes = v.curr.codes.erase tag) ∧
    (tag ∉ v.curr.codes →
      ((v.update (Message.CodeToggle tag true)).1.update
        (Message.CodeToggle tag false)).1 = v) := by
  have key := codeToggle_pair_eq v tag hidx
  constructor
  · rw [key, setCurr_curr _ _ hidx]
    exact Finset.erase_insert_eq_erase ..
  · intro hnotin
    rw [key, Finset.erase_insert hnotin]
    exact setCurr_self v hidx

/-- C4 witness for the amended claim: on the three-entry viewer, whose current
entry has an empty code set, inserting then removing `tagA` restores the exact
original state. -/
theorem claim4_code_roundtrip_witness :
    sampleViewer.idx < sampleViewer.data.length ∧
    tagA ∉ sampleViewer.curr.codes ∧
    ((sampleViewer.update (Message.CodeToggle tagA true)).1.update
        (Message.CodeToggle tagA false)).1 = sampleViewer :=
  ⟨by decide, by decide,
    (claim4_code_roundtrip sampleViewer tagA (by decide)).2 (by decide)⟩

/-- C5: the claim fails on the code — merely rendering the current entry is
enough to change an absent `matches` to `some false`.  On the sample viewer the
current entry's `matches` starts absent, yet building the Matches checkbox in
`Viewer::view` (the `get_or_insert(false)` call, main.rs 225) writes
`some false` into the entry as a side effect of display, before any user write.
The displayed value is `false`, and afterwards absence is lost. -/
theorem claim5_view_mutates_absent_matches :
    sampleViewer.curr.«matches» = none ∧
    (sampleViewer.viewMatchesCheckbox).1 = false ∧
    (sampleViewer.viewMatchesCheckbox).2.curr.«matches» = some false := by
  decide

/-- C6: with `idx` in bounds, `SetMatches b` (`Message::Matches`) writes the
full post-state entry sequence to the output, leaves `idx` and the vocabulary
fields unchanged, replaces only the `matches` field of the current entry with
`some b`, and leaves every other entry exactly as before the intent. -/
theorem claim6_set_matches_frame (v : Viewer) (b : Bool) (hidx : v.idx < v.data.length) :
    (v.update (Message.Matches b)).2 = some ((v.update (Message.Matches b)).1.data) ∧
    (v.update (Message.Matches b)).1.idx = v.idx ∧
    (v.update (Message.Matches b)).1.data.length = v.data.length ∧
    (v.update (Message.Matches b)).1.data[v.idx]?
      = some { v.curr with «matches» := some b } ∧
    (∀ j, j ≠ v.idx → (v.update (Message.Matches b)).1.data[j]? = v.data[j]?) ∧
    (v.update (Message.Matches b)).1.codes = v.codes ∧
    (v.update (Message.Matches b)).1.themes = v.themes := by
  refine ⟨rfl, rfl, setCurr_length .., ?_, ?_, rfl, rfl⟩
  · show (v.data.set v.idx _)[v.idx]? = _
    rw [List.getElem?_set_self hidx]
  · intro j hj
    show (v.data.set v.idx _)[j]? = v.data[j]?
    rw [List.getElem?_set_ne (Ne.symm hj)]

/-- C6 witness: setting `matches` to `true` on the first of the three sample
entries saves the new sequence, rewrites entry 0 with `matches = some true`,
and leaves entry 1 untouched. -/
theorem claim6_set_matches_frame_witness :
    sampleViewer.idx < sampleViewer.data.length ∧
    (sampleViewer.update (Message.Matches true)).2
      = some ((sampleViewer.update (Message.Matches true)).1.data) ∧
    (sampleViewer.update (Message.Matches true)).1.data[sampleViewer.idx]?
      = some { sampleViewer.curr with «matches» := some true } ∧
    (sampleViewer.update (Message.Matches true)).1.data[1]? = sampleViewer.data[1]? :=
  ⟨by decide,
    (claim6_set_matches_frame sampleViewer true (by decide)).1,
    (claim6_set_matches_frame sampleViewer true (by decide)).2.2.2.1,
    (claim6_set_matches_frame sampleViewer true (by decide)).2.2.2.2.1 1 (by decide)⟩

/-- C7: loading the vocabulary never fails because of a malformed row: the
result keeps exactly the successfully decoded rows (one `Code` per `ok` row,
every `ok` row represented, nothing else), and on the concrete three-data-row
file whose middle row is malformed it yields exactly the two good codes. -/
theorem claim7_malformed_rows_dropped (rows : List (Except String Code)) :
    ((loadVocabulary rows).length = rows.countP (fun r => r.toOption.isSome)) ∧
    (∀ c : Code, Except.ok c ∈ rows → c ∈ loadVocabulary rows) ∧
    (∀ c : Code, c ∈ loadVocabulary rows → Except.ok c ∈ rows) ∧
    loadVocabulary sampleRows = [codeA, codeB] := by
  refine ⟨?_, ?_, ?_, rfl⟩
  · induction rows with
    | nil => rfl
    | cons r t ih =>
      cases r with
      | ok c =>
        simpa [loadVocabulary, List.countP_cons, Except.toOption] using ih
      | error e =>
        simpa [loadVocabulary, List.countP_cons, Except.toOption] using ih
  · intro c hc
    rw [loadVocabulary, List.mem_filterMap]
    exact ⟨Except.ok c, hc, rfl⟩
  · intro c hc
    rw [loadVocabulary, List.mem_filterMap] at hc
    obtain ⟨a, ha, hfa⟩ := hc
    cases a with
    | ok x =>
      simp only [Except.toOption, Option.some.injEq] at hfa
      rw [← hfa]
      exact ha
    | error e => simp [Except.toOption] at hfa

/-- C7 witness: on the concrete rows, the count matches, the first good code is
kept, and the result is exactly the two good codes. -/
theorem claim7_malformed_rows_dropped_witness :
    (loadVocabulary sampleRows).length = 2 ∧
    Except.ok codeA ∈ sampleRows ∧
    codeA ∈ loadVocabulary sampleRows ∧
    loadVocabulary sampleRows = [codeA, codeB] :=
  ⟨rfl, by simp [sampleRows],
    (claim7_malformed_rows_dropped sampleRows).2.1 codeA (by simp [sampleRows]),
    (claim7_malformed_rows_dropped sampleRows).2.2.2⟩

theorem mem_dedupAdj {α : Type} [DecidableEq α] (l : List α) (x : α) :
    x ∈ dedupAdj l ↔ x ∈ l := by
  induction l with
  | nil => simp [dedupAdj]
  | cons a t ih =>
    cases t with
    | nil => simp [dedupAdj]
    | cons b l =>
      rw [dedupAdj]
      split
      · rename_i h
        subst h
        rw [ih]
        simp
      · simp only [List.mem_cons] at ih ⊢
        rw [ih]

theorem sorted_lt_dedupAdj {α : Type} [DecidableEq α] [LinearOrder α] (l : List α)
    (h : l.Sorted (· ≤ ·)) : (dedupAdj l).Sorted (· < ·) := by
  induction l with
  | nil => simp [dedupAdj]
  | cons a t ih =>
    cases t with
    | nil => simp [dedupAdj]
    | cons b l =>
      rw [List.sorted_cons] at h
      rw [dedupAdj]
      split
      · exact ih h.2
      · rename_i hne
        rw [List.sorted_cons]
        refine ⟨fun x hx => ?_, ih h.2⟩
        rw [mem_dedupAdj] at hx
        rcases List.mem_cons.mp hx with rfl | hx
        · exact lt_of_le_of_ne (h.1 x (List.mem_cons_self _ _)) hne
        · have hb : b ≤ x := (List.sorted_cons.mp h.2).1 x hx
          exact lt_of_lt_of_le (lt_of_le_of_ne (h.1 b (List.mem_cons_self _ _)) hne) hb

/-- C8: the derived themes list is strictly sorted in ascending lexicographic
order (hence duplicate-free) and contains exactly the theme values of the
loaded codes. -/
theorem claim8_themes_sorted_distinct (codes : List Code) :
    (themesOf codes).Sorted (· < ·) ∧
    (themesOf codes).Nodup ∧
    (∀ t, t ∈ themesOf codes ↔ t ∈ codes.map Code.theme) := by
  have hs : (themesOf codes).Sorted (· < ·) :=
    sorted_lt_dedupAdj _ (List.sorted_insertionSort _ _)
  refine ⟨hs, List.Pairwise.imp (fun h => ne_of_lt h) hs, fun t => ?_⟩
  rw [themesOf, mem_dedupAdj]
  exact (List.perm_insertionSort _ _).mem_iff

/-- C8 witness: for the one-code vocabulary the themes list is exactly the one
theme, strictly sorted, and membership agrees with the mapped themes. -/
theorem claim8_themes_sorted_distinct_witness :
    themesOf [codeA] = ["themeA"] ∧
    (themesOf [codeA]).Sorted (· < ·) ∧
    ("themeA" ∈ themesOf [codeA] ↔ "themeA" ∈ [codeA].map Code.theme) :=
  ⟨rfl, (claim8_themes_sorted_distinct [codeA]).1,
    (claim8_themes_sorted_distinct [codeA]).2.2 _⟩

/-- C9: `Viewer::new` accepts exactly three positional arguments (an argument
vector of length four counting the program name).  For every other count it
fails with the argument-count assertion — uniformly in the file oracles, i.e.
before any file is opened and before any state is constructed — and with three
positional arguments and readable files it succeeds, building the initial state
at position `0` with the loaded data and vocabulary. -/
theorem claim9_arg_count (args : List String) :
    (args.length ≠ 4 →
      ∀ readEntries readVocabRows,
        viewerNew args readEntries readVocabRows
          = Except.error (InitError.wrongArgCount args.length)) ∧
    (args.length = 4 →
      ∀ readEntries readVocabRows data rows,
        readEntries (args.getD 1 "") = some data →
        readVocabRows (args.getD 2 "") = some rows →
        ∃ v, viewerNew args readEntries readVocabRows = Except.ok v ∧
          v.idx = 0 ∧ v.data = data ∧ v.codes = loadVocabulary rows ∧
          v.themes = themesOf (loadVocabulary rows)) := by
  constructor
  · intro hne re rv
    unfold viewerNew
    rw [if_neg hne]
  · intro h re rv data rows hre hrv
    unfold viewerNew
    rw [if_pos h, hre, hrv]
    exact ⟨_, rfl, rfl, rfl, rfl, rfl⟩

/-- C9 witness: a two-positional-argument vector is rejected with the count
assertion no matter what the files hold, while the three-positional-argument
vector with readable files yields the initial state. -/
theorem claim9_arg_count_witness :
    badArgs.length ≠ 4 ∧
    viewerNew badArgs constEntries constVocab
      = Except.error (InitError.wrongArgCount badArgs.length) ∧
    okArgs.length = 4 ∧
    (∃ v, viewerNew okArgs constEntries constVocab = Except.ok v ∧
      v.idx = 0 ∧ v.data = [sampleEntry] ∧ v.codes = loadVocabulary sampleRows ∧
      v.themes = themesOf (loadVocabulary sampleRows)) :=
  ⟨by decide,
    (claim9_arg_count badArgs).1 (by decide) constEntries constVocab,
    by decide,
    (claim9_arg_count okArgs).2 (by decide) constEntries constVocab
      [sampleEntry] sampleRows rfl rfl⟩
